import Mathlib

/-!
Shallow embedding of the godoctor `doctor` package (files `filesystem.go` and
`fiximports.go`), together with theorems settling the frozen claims about it.

Conventions of the embedding:
* Go maps (`map[string]string`) are modelled as association lists with unique
  keys (`mapInsert` removes any old binding before adding the new one, exactly
  like a Go map assignment).
* Functions that in Go return an `error` are modelled as returning the
  post-state paired with `Option String` (`none` = nil error); read-only
  functions return `Except String α`.
* The host operating system's file store (used by `os.Open`, `os.Rename`,
  `os.Remove`, `os.Stat` inside `LocalFileSystem`) is modelled as an
  association list from path to content with the usual POSIX semantics.
* `token.Pos` values are modelled as the byte offsets that
  `Fset.Position(pos).Offset` would produce, with `0` playing the role of
  `token.NoPos` (a valid position of a real syntax node is always positive).
-/

set_option autoImplicit false
set_option maxRecDepth 10000

namespace Godoctor

/-! ## String and path helpers (Go `path`, `path/filepath`, `strings` stdlib) -/

/-- Characters of the final path segment: everything after the last `'/'`.
This is the `file` component of Go's `path.Split` / `filepath.Split`, and it
also equals the last element of `strings.Split(s, "/")`. -/
def finalSegChars (cs : List Char) : List Char :=
  ((cs.reverse.takeWhile (fun c => c != '/'))).reverse

/-- Characters of the directory part (up to and including the final `'/'`):
the `dir` component of Go's `path.Split`. -/
def dirPartChars (cs : List Char) : List Char :=
  ((cs.reverse.dropWhile (fun c => c != '/'))).reverse

/-- Final path segment of a string, as a string.  Used for
`filepath.Split(path)`'s file component in `VirtualFileSystem.OpenFile` and
for the last element of `strings.Split(pkg, "/")` in `resolveSelector`. -/
def finalSegment (s : String) : String :=
  ⟨finalSegChars s.data⟩

/-- Translation of `isBareFilename` (filesystem.go): `dir, _ := path.Split(filePath);
return dir == ""`. -/
def isBareFilename (filePath : String) : Bool :=
  (dirPartChars filePath.data).isEmpty

/-- The destination path computed by `LocalFileSystem.Rename`:
`path.Join(path.Dir(oldPath), newName)`.  For paths free of `.`/`..` segments
and duplicated slashes this equals the directory part of `oldPath` (with its
trailing slash) concatenated with `newName`. -/
def renamedPath (oldPath newName : String) : String :=
  (⟨dirPartChars oldPath.data⟩ : String) ++ newName

/-! ## Association-list model of Go maps -/

/-- One table entry: key (path/name) and value (content). -/
abbrev Entry := String × String

/-- Effect of Go's `delete(m, k)` on the model. -/
def eraseKey (k : String) (l : List Entry) : List Entry :=
  l.filter (fun e => e.1 != k)

/-- Effect of Go's `m[k] = v` on the model (unique-key association list). -/
def mapInsert (k v : String) (l : List Entry) : List Entry :=
  (k, v) :: eraseKey k l

theorem lookup_eraseKey_self (k : String) (l : List Entry) :
    (eraseKey k l).lookup k = none := by
  induction l with
  | nil => rfl
  | cons e es ih =>
    rcases e with ⟨a, b⟩
    by_cases h : a = k
    · simpa [eraseKey, h] using ih
    · have hb : (a != k) = true := by simpa using h
      have hk : (k == a) = false := by
        simpa using fun hh : k = a => h hh.symm
      simpa [eraseKey, List.filter_cons, hb, List.lookup, hk] using ih

theorem lookup_eraseKey_ne {k k' : String} (h : k ≠ k') (l : List Entry) :
    (eraseKey k' l).lookup k = l.lookup k := by
  induction l with
  | nil => rfl
  | cons e es ih =>
    rcases e with ⟨a, b⟩
    by_cases he : a = k'
    · subst he
      have hk : (k == a) = false := by simpa using h
      simpa [eraseKey, List.filter_cons, List.lookup, hk] using ih
    · have hb : (a != k') = true := by simpa using he
      by_cases hke : k = a
      · subst hke
        simp [eraseKey, List.filter_cons, hb, List.lookup]
      · have hk : (k == a) = false := by simpa using hke
        simpa [eraseKey, List.filter_cons, hb, List.lookup, hk] using ih

theorem lookup_mapInsert_self (k v : String) (l : List Entry) :
    (mapInsert k v l).lookup k = some v := by
  simp [mapInsert, List.lookup]

theorem lookup_mapInsert_ne {k k' : String} (h : k ≠ k') (v : String) (l : List Entry) :
    (mapInsert k' v l).lookup k = l.lookup k := by
  have hk : (k == k') = false := by simpa using h
  simp [mapInsert, List.lookup, hk, lookup_eraseKey_ne h]

/-! ## Virtual file system (filesystem.go, `VirtualFileSystem`) -/

/-- State of `VirtualFileSystem`: its `files map[string]string`. -/
abbrev VFS := List Entry

/-- Host disk state, used to model the real file store that `os.Open`,
`os.Stat`, `os.Create`, `os.Rename` and `os.Remove` operate on. -/
abbrev Host := List Entry

/-- Translation of `isInGoRoot` (filesystem.go):
`strings.HasPrefix(path, os.Getenv("GOROOT"))`, with the environment value
passed explicitly as `goroot`. -/
def isInGoRoot (goroot p : String) : Bool :=
  goroot.isPrefixOf p

/-- Translation of `VirtualFileSystem.OpenFile`.  Inside GOROOT it delegates
to the host disk (`os.Open`); otherwise it looks up the final path component
(`filepath.Split`) in the in-memory table. -/
def vfsOpenFile (host : Host) (goroot : String) (fs : VFS) (p : String) :
    Except String String :=
  if isInGoRoot goroot p then
    match host.lookup p with
    | some c => Except.ok c
    | none => Except.error ("open " ++ p ++ ": no such file or directory")
  else
    let fname := finalSegment p
    match fs.lookup fname with
    | some contents => Except.ok contents
    | none => Except.error ("Virtual file not found: " ++ fname)

/-- Translation of `VirtualFileSystem.CreateFile`: fails if the name is
already present, otherwise stores the contents. -/
def vfsCreateFile (fs : VFS) (p contents : String) : VFS × Option String :=
  match fs.lookup p with
  | some _ => (fs, some ("File already exists: " ++ p))
  | none => (mapInsert p contents fs, none)

/-- Translation of `VirtualFileSystem.Rename`: the source must exist, the
destination must not; then `fs.files[newName] = fs.files[path]` followed by
`delete(fs.files, path)`.  Note the source performs no bare-name check here. -/
def vfsRename (fs : VFS) (p newName : String) : VFS × Option String :=
  match fs.lookup p with
  | none => (fs, some ("File does not exist: " ++ p))
  | some v =>
    if (fs.lookup newName).isSome then
      (fs, some ("File already exists: " ++ newName))
    else
      (eraseKey p (mapInsert newName v fs), none)

/-- Translation of `VirtualFileSystem.Remove`: the name must exist, then
`delete(fs.files, path)`. -/
def vfsRemove (fs : VFS) (p : String) : VFS × Option String :=
  match fs.lookup p with
  | none => (fs, some ("File does not exist: " ++ p))
  | some _ => (eraseKey p fs, none)

/-! ## Local file system (filesystem.go, `LocalFileSystem`) -/

/-- Translation of `LocalFileSystem.OpenFile` (a straight `os.Open`). -/
def lfsOpenFile (host : Host) (p : String) : Except String String :=
  match host.lookup p with
  | some c => Except.ok c
  | none => Except.error ("open " ++ p ++ ": no such file or directory")

/-- Translation of `LocalFileSystem.CreateFile`: `os.Stat` must report the
path missing (otherwise "Path already exists"), then the file is created with
the given contents. -/
def lfsCreateFile (host : Host) (p contents : String) : Host × Option String :=
  match host.lookup p with
  | some _ => (host, some ("Path already exists: " ++ p))
  | none => (mapInsert p contents host, none)

/-- Semantics of `os.Rename(oldPath, newPath)` on the host model: fails if
the source does not exist, otherwise moves the content (overwriting any
existing destination file, as POSIX rename does). -/
def osRename (host : Host) (oldPath newPath : String) : Host × Option String :=
  match host.lookup oldPath with
  | none =>
    (host, some ("rename " ++ oldPath ++ " " ++ newPath ++
      ": no such file or directory"))
  | some v => (mapInsert newPath v (eraseKey oldPath host), none)

/-- Translation of `LocalFileSystem.Rename`: rejects a non-bare `newName`
before touching the disk, then delegates to
`os.Rename(oldPath, path.Join(path.Dir(oldPath), newName))`. -/
def lfsRename (host : Host) (oldPath newName : String) : Host × Option String :=
  if !isBareFilename newName then
    (host, some ("newName must be a bare filename: " ++ newName))
  else
    osRename host oldPath (renamedPath oldPath newName)

/-- Translation of `LocalFileSystem.Remove` (a straight `os.Remove`). -/
def lfsRemove (host : Host) (p : String) : Host × Option String :=
  match host.lookup p with
  | none => (host, some ("remove " ++ p ++ ": no such file or directory"))
  | some _ => (eraseKey p host, none)

/-! ## Edited (overlay) file system (filesystem.go, `EditedFileSystem`)

The `EditSet` type and the `ApplyToReader` function live elsewhere in the
repository, outside the two files under verification; they are abstracted
here as a type parameter `ε` and an edit-application function. -/

/-- State of `EditedFileSystem`: the wrapped real disk plus the pending-edit
map `Edits map[string]EditSet`. -/
abbrev EFS (ε : Type) := Host × List (String × ε)

/-- Translation of `EditedFileSystem.OpenFile`: open via the local backend;
if that failed, or no edit set is pending for this path, return the local
result unchanged; otherwise return `ApplyToReader(editSet, localReader)`
(the pending edit set applied to the base bytes). -/
def efsOpenFile {ε : Type} (applyToReader : ε → String → Except String String)
    (fs : EFS ε) (p : String) : Except String String :=
  match lfsOpenFile fs.1 p, fs.2.lookup p with
  | Except.error e, _ => Except.error e
  | Except.ok c, none => Except.ok c
  | Except.ok c, some editSet => applyToReader editSet c

/-- State-passing variant of `efsOpenFile`, making explicit that the read
leaves both the real disk and the pending-edit map untouched (the source's
`OpenFile` performs no writes). -/
def efsOpenFileS {ε : Type} (applyToReader : ε → String → Except String String)
    (fs : EFS ε) (p : String) : Except String String × EFS ε :=
  (efsOpenFile applyToReader fs p, fs)

/-- Translation of `EditedFileSystem.CreateFile`:
`panic("CreateFile unsupported")`, modelled as an error result that leaves
the state unchanged (spec §9 directs representing the abort as an
"unsupported" error so it can be asserted against). -/
def efsCreateFile {ε : Type} (fs : EFS ε) (p contents : String) :
    EFS ε × Option String :=
  (fs, some "CreateFile unsupported")

/-- Translation of `EditedFileSystem.Rename`: `panic("Rename unsupported")`. -/
def efsRename {ε : Type} (fs : EFS ε) (p newName : String) :
    EFS ε × Option String :=
  (fs, some "Rename unsupported")

/-- Translation of `EditedFileSystem.Remove`: `panic("Remove unsupported")`. -/
def efsRemove {ε : Type} (fs : EFS ε) (p : String) : EFS ε × Option String :=
  (fs, some "Remove unsupported")

/-! ## File system changes (filesystem.go, `FileSystemChange` / `Execute`) -/

/-- Dynamic-dispatch view of the `FileSystem` interface's mutating methods,
for a backend with state type `σ`: each operation returns the post-state and
an optional error. -/
structure FSOps (σ : Type) where
  createFile : σ → String → String → σ × Option String
  rename : σ → String → String → σ × Option String
  remove : σ → String → σ × Option String

/-- The `VirtualFileSystem` instance of the mutating interface. -/
def vfsOps : FSOps VFS :=
  { createFile := vfsCreateFile, rename := vfsRename, remove := vfsRemove }

/-- The `LocalFileSystem` instance of the mutating interface. -/
def lfsOps : FSOps Host :=
  { createFile := lfsCreateFile, rename := lfsRename, remove := lfsRemove }

/-- The `EditedFileSystem` instance of the mutating interface (every
operation fails as unsupported). -/
def efsOps (ε : Type) : FSOps (EFS ε) :=
  { createFile := efsCreateFile, rename := efsRename, remove := efsRemove }

/-- Translation of the `FileSystemChange` variants `fsCreateFile`,
`fsRename`, `fsRemove`. -/
inductive FileSystemChange where
  | createFile (path contents : String)
  | rename (path newName : String)
  | remove (path : String)
deriving DecidableEq

/-- Translation of the three `ExecuteUsing` methods: dispatch the change to
the corresponding backend operation. -/
def executeUsing {σ : Type} (ops : FSOps σ) (fs : σ) :
    FileSystemChange → σ × Option String
  | FileSystemChange.createFile p contents => ops.createFile fs p contents
  | FileSystemChange.rename p newName => ops.rename fs p newName
  | FileSystemChange.remove p => ops.remove fs p

/-- Translation of `Execute` (filesystem.go): run the changes in order
against the backend, returning the first error (with the state reached so
far) or the final state. -/
def Execute {σ : Type} (ops : FSOps σ) (fs : σ) :
    List FileSystemChange → σ × Option String
  | [] => (fs, none)
  | chg :: rest =>
    match executeUsing ops fs chg with
    | (fs', none) => Execute ops fs' rest
    | (fs', some e) => (fs', some e)

/-! ## Import resolver (fiximports.go)

The parsed file is seen by the resolver through four projections of the
go/ast + go/types structures:
* `imports` — for each `*ast.ImportSpec` of the file, the pair
  `(Path.Value, Name)`.  `Path.Value` is the raw source literal of the import
  path, *including its surrounding double quotes* (go/ast `BasicLit.Value` is
  the literal's source text); `Name` is the optional alias identifier.  That
  the working map's keys carry the quotes is confirmed inside fiximports.go
  itself: `resolveSelector` returns `"\"" + candidates[0] + "\""` so that
  inferred paths live in the same quoted key space.
* `pkgNameBindings` — for each identifier of the file that
  `pkgInfo.ObjectOf` binds to a `*types.PkgName`, that package name's
  `Name()` (an unquoted identifier).
* `selectorLHSNames` — the names of the identifiers that occur as the `X`
  operand of some `*ast.SelectorExpr` in the file.
* `unresolved` — the names in `file.Unresolved`. -/

/-- Resolver view of the parsed file. -/
structure ResolverFile where
  imports : List (String × Option String)
  pkgNameBindings : List String
  selectorLHSNames : List String
  unresolved : List String

/-- Translation of `collectReferencedPackages`: walk every identifier and
record the `Name()` of each `*types.PkgName` binding (map keys only matter
up to membership). -/
def collectReferencedPackages (f : ResolverFile) : List String :=
  f.pkgNameBindings

/-- Translation of `findUsedImports`: keep an import when its `Name` (the
empty string when absent) or its `Path.Value` occurs among the referenced
package names; build the working map from path to alias. -/
def findUsedImports (f : ResolverFile) : List Entry :=
  let packagesReferenced := collectReferencedPackages f
  f.imports.foldl
    (fun imports imprt =>
      let path := imprt.1
      let name := imprt.2.getD ""
      if packagesReferenced.contains name || packagesReferenced.contains path then
        mapInsert path name imports
      else
        imports)
    []

/-- Translation of `isIdentInLHSOfSelectorExpr`.  The source walks the whole
file and sets `result` to true as soon as *any* `SelectorExpr` whose `X` is
an identifier is found; the `ident` argument is never consulted (it is
unused in the Go function body), so the result is simply "does the file
contain some selector expression with an identifier LHS". -/
def isIdentInLHSOfSelectorExpr (f : ResolverFile) (identName : String) : Bool :=
  !f.selectorLHSNames.isEmpty

/-- Translation of the `goLibraryPackages` table (fiximports.go). -/
def goLibraryPackages : List String := [
  "archive", "archive/tar", "archive/zip", "bufio", "builtin", "bytes",
  "compress", "compress/bzip2", "compress/flate", "compress/gzip",
  "compress/lzw", "compress/zlib", "container", "container/heap",
  "container/list", "container/ring", "crypto", "crypto/aes",
  "crypto/cipher", "crypto/des", "crypto/dsa", "crypto/ecdsa",
  "crypto/elliptic", "crypto/hmac", "crypto/md5", "crypto/rand",
  "crypto/rc4", "crypto/rsa", "crypto/sha1", "crypto/sha256",
  "crypto/sha512", "crypto/subtle", "crypto/tls", "crypto/x509",
  "crypto/x509/pkix", "database", "database/sql", "database/sql/driver",
  "debug", "debug/dwarf", "debug/elf", "debug/gosym", "debug/macho",
  "debug/pe", "encoding", "encoding/ascii85", "encoding/asn1",
  "encoding/base32", "encoding/base64", "encoding/binary", "encoding/csv",
  "encoding/gob", "encoding/hex", "encoding/json", "encoding/pem",
  "encoding/xml", "errors", "expvar", "flag", "fmt", "go", "go/ast",
  "go/build", "go/doc", "go/format", "go/parser", "go/printer",
  "go/scanner", "go/token", "hash", "hash/adler32", "hash/crc32",
  "hash/crc64", "hash/fnv", "html", "html/template", "image",
  "image/color", "image/color/palette", "image/draw", "image/gif",
  "image/jpeg", "image/png", "index", "index/suffixarray", "io",
  "io/ioutil", "log", "log/syslog", "math", "math/big", "math/cmplx",
  "math/rand", "mime", "mime/multipart", "net", "net/http", "net/http/cgi",
  "net/http/cookiejar", "net/http/fcgi", "net/http/httptest",
  "net/http/httputil", "net/http/pprof", "net/mail", "net/rpc",
  "net/rpc/jsonrpc", "net/smtp", "net/textproto", "net/url", "os",
  "os/exec", "os/signal", "os/user", "path", "path/filepath", "reflect",
  "regexp", "regexp/syntax", "runtime", "runtime/cgo", "runtime/debug",
  "runtime/pprof", "runtime/race", "sort", "strconv", "strings", "sync",
  "sync/atomic", "syscall", "testing", "testing/iotest", "testing/quick",
  "text", "text/scanner", "text/tabwriter", "text/template",
  "text/template/parse", "time", "unicode", "unicode/utf16",
  "unicode/utf8", "unsafe"]

/-- Catalog candidates for an identifier name: the packages whose final
path segment (`strings.Split(pkg, "/")`, last component) equals the name.
This is the filter loop at the top of `resolveSelector`. -/
def pkgCandidates (identName : String) : List String :=
  goLibraryPackages.filter (fun pkg => finalSegment pkg == identName)

/-- The candidate listing written into the ambiguity diagnostic's buffer:
one line `"    " ++ candidate ++ "\n"` per candidate, in catalog order. -/
def candidateLines : List String → String
  | [] => ""
  | c :: rest => "    " ++ c ++ "\n" ++ candidateLines rest

/-- The full ambiguity diagnostic built by `resolveSelector`'s else branch. -/
def multiplePackagesMessage (identName : String) (candidates : List String) :
    String :=
  "There are multiple packages named " ++ identName ++ ":\n" ++
    candidateLines candidates

/-- Translation of `resolveSelector`: exactly one catalog candidate returns
the quoted path (and no diagnostic); any other candidate count returns `""`
and logs the ambiguity message (note the source's else branch also covers
the zero-candidate case).  Result: `(returned string, logged diagnostic)`. -/
def resolveSelector (identName : String) : String × Option String :=
  let candidates := pkgCandidates identName
  if candidates.length = 1 then
    ("\"" ++ candidates.headI ++ "\"", none)
  else
    ("", some (multiplePackagesMessage identName candidates))

/-- Translation of `resolve`: delegate to `resolveSelector` when
`isIdentInLHSOfSelectorExpr` holds, otherwise log "Unable to resolve" and
return the empty string.  Result: `(returned string, logged diagnostic)`. -/
def resolve (f : ResolverFile) (identName : String) : String × Option String :=
  if isIdentInLHSOfSelectorExpr f identName then
    resolveSelector identName
  else
    ("", some ("Unable to resolve " ++ identName))

/-! ## Serialization (fiximports.go, `constructNewImportStatement`) -/

/-- Rendering of one entry of the import map: `name ++ " " ++ path`, the
alias omitted when it is empty. -/
def renderImport (e : Entry) : String :=
  if e.2 = "" then e.1 else e.2 ++ " " ++ e.1

/-- The loop writing the import block's body: one line `"\t" ++ line ++ "\n"`
per rendered import. -/
def importBlockBody : List String → String
  | [] => ""
  | line :: rest => "\t" ++ line ++ "\n" ++ importBlockBody rest

/-- Translation of `constructNewImportStatement`: render each map entry,
sort the rendered lines (`sort.Strings`, modelled by a comparison sort over
the lexicographic order on strings), and wrap them in `import (\n ... )\n`.
The import map is passed as the list of its entries in iteration order. -/
def constructNewImportStatement (importSet : List Entry) : String :=
  let imports :=
    List.insertionSort (fun a b : String => a ≤ b)
      (importSet.map renderImport)
  "import (\n" ++ importBlockBody imports ++ ")\n"

/-! ## Replacement-range computation (fiximports.go) -/

/-- The byte range of a staged edit (`OffsetLength` in the repository). -/
structure OffsetLength where
  offset : Nat
  length : Nat
deriving DecidableEq, Repr

/-- One top-level declaration of the parsed file, reduced to what the range
computation observes: whether it is a `GenDecl` with token `IMPORT`, its
`Pos()` and `End()` byte offsets, and — when it is an import declaration —
how many `ImportSpec`s it holds (an `import ()` block holds zero). -/
structure GoDecl where
  isImport : Bool
  pos : Nat
  declEnd : Nat
  numSpecs : Nat
deriving DecidableEq, Repr

/-- The resolver's view of the parsed file for range computation. -/
structure GoFile where
  decls : List GoDecl
deriving DecidableEq

/-- Model of `len(file.Imports)`: go/ast's `File.Imports` lists every
`ImportSpec` appearing in the file, i.e. the specs of all import
declarations concatenated. -/
def numImportSpecs (f : GoFile) : Nat :=
  (f.decls.filter (fun d => d.isImport)).foldl (fun n d => n + d.numSpecs) 0

/-- The `ast.Inspect` loop of `findImportStatementRange`: fold over the
top-level declarations, recording the first import declaration's `Pos()`
(guarded by the `startPos == 0` sentinel) and the last one's `End()`. -/
def scanImportDecls (decls : List GoDecl) : Nat × Nat :=
  decls.foldl
    (fun acc d =>
      if d.isImport then
        (if acc.1 = 0 then d.pos else acc.1, d.declEnd)
      else acc)
    (0, 0)

/-- Translation of `findImportStatementRange`: the offset of the first
of the import declarations, with length `endOffset - startOffset + 1`. -/
def findImportStatementRange (f : GoFile) : OffsetLength :=
  let scanned := scanImportDecls f.decls
  ⟨scanned.1, scanned.2 - scanned.1 + 1⟩

/-- Translation of `findFirstDeclOffset`: the offset of `file.Decls[0]`.
The source indexes unconditionally; the out-of-bounds access on an empty
declaration list is modelled as `none`. -/
def findFirstDeclOffset (f : GoFile) : Option Nat :=
  f.decls.head?.map (fun d => d.pos)

/-- Translation of `findReplacementRange`: with no import specs, a
zero-length insertion at the first declaration's offset with suffix `"\n"`;
otherwise the import-statement range with an empty suffix.  `none` models
the panic of `findFirstDeclOffset` on a declaration-less file. -/
def findReplacementRange (f : GoFile) : Option (OffsetLength × String) :=
  if numImportSpecs f = 0 then
    (findFirstDeclOffset f).map (fun off => (⟨off, 0⟩, "\n"))
  else
    some (findImportStatementRange f, "")

/-! ## Helper lemmas -/

theorem finalSegment_of_no_slash {s : String} (h : ∀ c ∈ s.data, c ≠ '/') :
    finalSegment s = s := by
  have hall : ∀ c ∈ s.data.reverse, (c != '/') = true := by
    intro c hc
    simpa using h c (List.mem_reverse.mp hc)
  have htake : s.data.reverse.takeWhile (fun c => c != '/') = s.data.reverse :=
    List.takeWhile_eq_self_iff.mpr hall
  have : finalSegChars s.data = s.data := by
    simp [finalSegChars, htake]
  cases s with
  | mk data => simpa [finalSegment] using congrArg String.mk this

theorem isBareFilename_eq_false_of_slash {s : String} (h : '/' ∈ s.data) :
    isBareFilename s = false := by
  have hdrop : s.data.reverse.dropWhile (fun c => c != '/') ≠ [] := by
    intro hnil
    have := List.dropWhile_eq_nil_iff.mp hnil '/' (List.mem_reverse.mpr h)
    simp at this
  have : dirPartChars s.data ≠ [] := by
    simpa [dirPartChars] using hdrop
  simpa [isBareFilename, List.isEmpty_iff] using this

/-! ## Claim C10 -/

/-- C10: when the file has no import specs the range computation reads
`file.Decls[0]`, so it is defined (`isSome`) exactly for files with at least
one top-level declaration; with zero imports and zero declarations both
`findFirstDeclOffset` and `findReplacementRange` are undefined
(out-of-bounds access, modelled as `none`). -/
theorem c10_range_requires_a_declaration (f : GoFile) :
    (f.decls = [] → findFirstDeclOffset f = none ∧ findReplacementRange f = none)
    ∧ (f.decls ≠ [] → (findReplacementRange f).isSome = true) := by
  constructor
  · intro h
    constructor
    · simp [findFirstDeclOffset, h]
    · simp [findReplacementRange, numImportSpecs, h, findFirstDeclOffset]
  · intro h
    unfold findReplacementRange
    split
    · cases hd : f.decls with
      | nil => exact absurd hd h
      | cons d rest => simp [findFirstDeclOffset, hd]
    · simp

theorem c10_range_requires_a_declaration_witness :
    findFirstDeclOffset ⟨[]⟩ = none ∧ findReplacementRange ⟨[]⟩ = none ∧
      (findReplacementRange ⟨[⟨false, 3, 9, 0⟩]⟩).isSome = true :=
  ⟨((c10_range_requires_a_declaration ⟨[]⟩).1 rfl).1,
   ((c10_range_requires_a_declaration ⟨[]⟩).1 rfl).2,
   (c10_range_requires_a_declaration ⟨[⟨false, 3, 9, 0⟩]⟩).2 (by decide)⟩

/-! ## Claim C5 -/

/-- C5: `constructNewImportStatement` is determined by the import set alone —
any two entry lists that are permutations of each other (all possible map
iteration orders of the same map) serialize to the same string, because the
rendered lines are sorted by the lexicographic order before being wrapped in
the `import ( ... )` block. -/
theorem c5_serialization_deterministic (l₁ l₂ : List Entry) (h : l₁.Perm l₂) :
    constructNewImportStatement l₁ = constructNewImportStatement l₂ := by
  unfold constructNewImportStatement
  have hm : (l₁.map renderImport).Perm (l₂.map renderImport) := h.map _
  have hs :
      List.insertionSort (fun a b : String => a ≤ b) (l₁.map renderImport) =
        List.insertionSort (fun a b : String => a ≤ b) (l₂.map renderImport) :=
    List.eq_of_perm_of_sorted
      (((List.perm_insertionSort _ _).trans hm).trans
        (List.perm_insertionSort _ _).symm)
      (List.sorted_insertionSort _ _) (List.sorted_insertionSort _ _)
  rw [hs]

theorem c5_serialization_deterministic_witness :
    constructNewImportStatement [("\"os\"", ""), ("\"fmt\"", "")] =
      constructNewImportStatement [("\"fmt\"", ""), ("\"os\"", "")] :=
  c5_serialization_deterministic _ _ (by decide)

/-! ## Claim C7 -/

/-- C7: on the overlay backend, `openForRead` returns the base backend's
bytes with the pending edit set applied when one exists for the path, and
the base result unchanged when none does; in either case the base backend's
stored content is untouched (the state-passing model returns the host
unchanged, as the source performs no writes). -/
theorem c7_overlay_openForRead (ε : Type)
    (applyToReader : ε → String → Except String String) (host : Host)
    (edits : List (String × ε)) (p : String) :
    (edits.lookup p = none →
      efsOpenFileS applyToReader (host, edits) p = (lfsOpenFile host p, (host, edits)))
    ∧ (∀ es c, edits.lookup p = some es → lfsOpenFile host p = Except.ok c →
      efsOpenFileS applyToReader (host, edits) p = (applyToReader es c, (host, edits)))
    ∧ (efsOpenFileS applyToReader (host, edits) p).2.1 = host := by
  refine ⟨?_, ?_, rfl⟩
  · intro h
    cases hL : lfsOpenFile host p <;>
      simp [efsOpenFileS, efsOpenFile, h, hL]
  · intro es c h hL
    simp [efsOpenFileS, efsOpenFile, h, hL]

theorem c7_overlay_openForRead_witness :
    efsOpenFileS (fun es c => Except.ok (c ++ es))
        ([("f", "abc")], [("f", "!")]) "f" =
      (Except.ok ("abc" ++ "!"), ([("f", "abc")], [("f", "!")])) :=
  (c7_overlay_openForRead String (fun es c => Except.ok (c ++ es))
      [("f", "abc")] [("f", "!")] "f").2.1 "!" "abc" rfl rfl

/-! ## Claim C8 -/

/-- C8: `Execute` replays a batch strictly in sequence: if every change of
`pre` succeeds (reaching state `s'`) and change `c` then fails with error
`e` (leaving state `s''`), the whole batch `pre ++ c :: post` returns error
`e` with state `s''` — the prefix stays applied, the error is the first
failure's, and no change after `c` is ever executed (no rollback). -/
theorem c8_execute_stops_at_first_failure {σ : Type} (ops : FSOps σ)
    (s s' s'' : σ) (pre post : List FileSystemChange) (c : FileSystemChange)
    (e : String) (h1 : Execute ops s pre = (s', none))
    (h2 : executeUsing ops s' c = (s'', some e)) :
    Execute ops s (pre ++ c :: post) = (s'', some e) := by
  induction pre generalizing s with
  | nil =>
    have hs : s = s' := by
      simpa [Execute] using congrArg Prod.fst h1
    subst hs
    simp only [List.nil_append, Execute, h2]
  | cons d rest ih =>
    rcases hd : executeUsing ops s d with ⟨t, err⟩
    cases err with
    | none =>
      have h1' : Execute ops t rest = (s', none) := by
        simpa [Execute, hd] using h1
      simpa [List.cons_append, Execute, hd] using ih t h1'
    | some e' =>
      exfalso
      have heq : (t, some e') = (s', (none : Option String)) := by
        simpa [Execute, hd] using h1
      simpa using congrArg Prod.snd heq

theorem c8_execute_stops_at_first_failure_witness :
    Execute vfsOps []
        [FileSystemChange.createFile "x" "c", FileSystemChange.remove "y",
          FileSystemChange.createFile "z" "d"] =
      ([("x", "c")], some ("File does not exist: " ++ "y")) :=
  c8_execute_stops_at_first_failure vfsOps [] [("x", "c")] [("x", "c")]
    [FileSystemChange.createFile "x" "c"] [FileSystemChange.createFile "z" "d"]
    (FileSystemChange.remove "y") ("File does not exist: " ++ "y") rfl rfl

/-! ## Claim C4 -/

/-- C4 counterexample: the virtual backend's `Rename` performs no bare-name
check, so renaming to a destination containing a directory separator
succeeds (and modifies the table), contradicting the claim that every
backend rejects such a `newName`. -/
theorem c4_virtual_rename_accepts_separator_counterexample :
    ('/' ∈ "a/b".data) ∧
      vfsRename [("x", "c")] "x" "a/b" = ([("a/b", "c")], none) := by
  constructor
  · decide
  · rfl

/-- C4 (amended): the local and overlay backends fail on a `newName`
containing a directory separator without modifying any stored entity (the
overlay backend rejects every rename outright); all three backends fail
without modification when `path` does not exist; but the virtual backend
performs no bare-name check on `newName`. -/
theorem c4_rename_failure_semantics (ε : Type) (efs : EFS ε) (host : Host)
    (vfs : VFS) (p n : String) :
    ('/' ∈ n.data →
      lfsRename host p n = (host, some ("newName must be a bare filename: " ++ n)))
    ∧ (host.lookup p = none →
      (lfsRename host p n).1 = host ∧ (lfsRename host p n).2.isSome = true)
    ∧ efsRename efs p n = (efs, some "Rename unsupported")
    ∧ (vfs.lookup p = none →
      vfsRename vfs p n = (vfs, some ("File does not exist: " ++ p))) := by
  refine ⟨?_, ?_, rfl, ?_⟩
  · intro h
    simp [lfsRename, isBareFilename_eq_false_of_slash h]
  · intro h
    unfold lfsRename
    cases hb : isBareFilename n with
    | false => simp
    | true => simp [osRename, h]
  · intro h
    simp [vfsRename, h]

theorem c4_rename_failure_semantics_witness :
    lfsRename [] "x" "a/b" = ([], some ("newName must be a bare filename: " ++ "a/b"))
    ∧ efsRename (([], []) : EFS String) "x" "y" = (([], []), some "Rename unsupported")
    ∧ vfsRename [] "x" "y" = ([], some ("File does not exist: " ++ "x")) :=
  ⟨(c4_rename_failure_semantics String ([], []) [] [] "x" "a/b").1 (by decide),
   (c4_rename_failure_semantics String ([], []) [] [] "x" "y").2.2.1,
   (c4_rename_failure_semantics String ([], []) [] [] "x" "y").2.2.2 rfl⟩

/-! ## Claim C6 -/

/-- C6: virtual-backend invariants.  `create` on an existing name fails;
`rename`/`remove` on a missing source fail; `rename` onto an existing
destination fails; each failing operation returns the table unchanged;
after a successful `rename(a→b)` of bare, non-GOROOT names, reading `b`
returns `a`'s former content and reading `a` fails; and the scenario
`create x; rename x→y; remove y` empties the table, after which a second
`remove y` fails with does-not-exist. -/
theorem c6_virtual_backend_invariants (goroot : String) (host : Host)
    (fs : VFS) (a b cont : String) :
    ((fs.lookup a).isSome = true →
      vfsCreateFile fs a cont = (fs, some ("File already exists: " ++ a)))
    ∧ (fs.lookup a = none →
      vfsRename fs a b = (fs, some ("File does not exist: " ++ a))
      ∧ vfsRemove fs a = (fs, some ("File does not exist: " ++ a)))
    ∧ ((fs.lookup a).isSome = true → (fs.lookup b).isSome = true →
      vfsRename fs a b = (fs, some ("File already exists: " ++ b)))
    ∧ (∀ v, fs.lookup a = some v → fs.lookup b = none →
      isInGoRoot goroot a = false → isInGoRoot goroot b = false →
      (∀ c ∈ a.data, c ≠ '/') → (∀ c ∈ b.data, c ≠ '/') →
      vfsOpenFile host goroot (vfsRename fs a b).1 b = Except.ok v
      ∧ vfsOpenFile host goroot (vfsRename fs a b).1 a =
          Except.error ("Virtual file not found: " ++ a))
    ∧ (vfsCreateFile [] "x" cont = ([("x", cont)], none)
      ∧ vfsRename [("x", cont)] "x" "y" = ([("y", cont)], none)
      ∧ vfsRemove [("y", cont)] "y" = ([], none)
      ∧ vfsRemove [] "y" = ([], some ("File does not exist: " ++ "y"))) := by
  refine ⟨?_, ?_, ?_, ?_, ?_, ?_, ?_, ?_⟩
  · intro h
    obtain ⟨v, hv⟩ := Option.isSome_iff_exists.mp h
    simp [vfsCreateFile, hv]
  · intro h
    exact ⟨by simp [vfsRename, h], by simp [vfsRemove, h]⟩
  · intro ha hb
    obtain ⟨v, hv⟩ := Option.isSome_iff_exists.mp ha
    simp [vfsRename, hv, hb]
  · intro v hv hb hga hgb hsa hsb
    have hab : a ≠ b := by
      intro h
      rw [h, hb] at hv
      exact Option.noConfusion hv
    have hstate : (vfsRename fs a b).1 = eraseKey a (mapInsert b v fs) := by
      simp [vfsRename, hv, hb]
    have hlb : (eraseKey a (mapInsert b v fs)).lookup b = some v := by
      rw [lookup_eraseKey_ne (Ne.symm hab), lookup_mapInsert_self]
    have hla : (eraseKey a (mapInsert b v fs)).lookup a = none :=
      lookup_eraseKey_self a _
    constructor
    · simp [vfsOpenFile, hgb, finalSegment_of_no_slash hsb, hstate, hlb]
    · simp [vfsOpenFile, hga, finalSegment_of_no_slash hsa, hstate, hla]
  · simp [vfsCreateFile, mapInsert, eraseKey]
  · rfl
  · rfl
  · rfl

theorem c6_virtual_backend_invariants_witness :
    vfsCreateFile [("x", "c")] "x" "d" =
      ([("x", "c")], some ("File already exists: " ++ "x"))
    ∧ vfsOpenFile [] "/g" (vfsRename [("x", "c")] "x" "y").1 "y" = Except.ok "c"
    ∧ vfsOpenFile [] "/g" (vfsRename [("x", "c")] "x" "y").1 "x" =
        Except.error ("Virtual file not found: " ++ "x") :=
  ⟨(c6_virtual_backend_invariants "/g" [] [("x", "c")] "x" "y" "d").1 rfl,
   ((c6_virtual_backend_invariants "/g" [] [("x", "c")] "x" "y" "d").2.2.2.1 "c"
      rfl rfl (by decide) (by decide) (by decide) (by decide)).1,
   ((c6_virtual_backend_invariants "/g" [] [("x", "c")] "x" "y" "d").2.2.2.1 "c"
      rfl rfl (by decide) (by decide) (by decide) (by decide)).2⟩

theorem infix_candidateLines {c : String} {l : List String} (h : c ∈ l) :
    c.data <:+: (candidateLines l).data := by
  induction l with
  | nil => cases h
  | cons d rest ih =>
    rcases List.mem_cons.mp h with hh | hh
    · subst hh
      refine ⟨"    ".data, "\n".data ++ (candidateLines rest).data, ?_⟩
      simp [candidateLines, String.data_append, List.append_assoc]
    · have hsuf : (candidateLines rest).data <:+ (candidateLines (d :: rest)).data := by
        simp only [candidateLines, String.data_append]
        exact List.suffix_append _ _
      exact (ih hh).trans hsuf.isInfix

theorem infix_multiplePackagesMessage {c name : String} {l : List String}
    (h : c ∈ l) : c.data <:+: (multiplePackagesMessage name l).data := by
  have hsuf : (candidateLines l).data <:+ (multiplePackagesMessage name l).data := by
    simp only [multiplePackagesMessage, String.data_append]
    exact List.suffix_append _ _
  exact (infix_candidateLines h).trans hsuf.isInfix

/-! ## Claim C1 -/

/-- C1 fails on the code: `isIdentInLHSOfSelectorExpr` never consults its
`ident` argument, so in a file containing some selector `os.x`, the
unresolved identifier `zz` — which never occurs as the left operand of any
selector — is still sent to catalog lookup, and the diagnostic produced is
the catalog one, not `"Unable to resolve zz"` as the claim requires. -/
theorem c1_lookup_attempted_for_non_selector_ident :
    isIdentInLHSOfSelectorExpr ⟨[], [], ["os"], ["zz"]⟩ "zz" = true
    ∧ ("zz" ∈ (⟨[], [], ["os"], ["zz"]⟩ : ResolverFile).selectorLHSNames → False)
    ∧ resolve ⟨[], [], ["os"], ["zz"]⟩ "zz" =
        ("", some "There are multiple packages named zz:\n")
    ∧ (resolve ⟨[], [], ["os"], ["zz"]⟩ "zz").2 ≠
        some ("Unable to resolve " ++ "zz") := by
  refine ⟨rfl, by decide, by decide, by decide⟩

/-! ## Claim C2 -/

/-- C2 fails on the code: in a file importing `"fmt"` and `"os"` without
aliases where only `fmt` is referenced, `findUsedImports` returns the empty
map rather than keeping `"fmt"`, because the kept-iff test compares the
quoted `Path.Value` literal (`"\"fmt\""`) against the unquoted referenced
package name (`"fmt"`), which never match. -/
theorem c2_pruning_drops_used_unaliased_import :
    "fmt" ∈ collectReferencedPackages
        ⟨[("\"fmt\"", none), ("\"os\"", none)], ["fmt"], [], []⟩
    ∧ findUsedImports ⟨[("\"fmt\"", none), ("\"os\"", none)], ["fmt"], [], []⟩ = [] :=
  ⟨by decide, rfl⟩

/-! ## Claim C3 -/

/-- C3 counterexample: for an identifier in selector position with zero
catalog matches (`zz`), the code does emit a diagnostic — the
"multiple packages" message with an empty candidate list — contradicting
the claim that zero matches produce no diagnostic beyond the general
unresolved handling. -/
theorem c3_zero_match_emits_diagnostic_counterexample :
    pkgCandidates "zz" = []
    ∧ resolve ⟨[], [], ["zz"], ["zz"]⟩ "zz" =
        ("", some "There are multiple packages named zz:\n") :=
  ⟨by decide, by decide⟩

/-- C3 (amended): catalog lookup by final path segment yields one of three
outcomes — exactly one match returns the quoted module path with no
diagnostic (staged as a no-alias import by `Run`); zero matches stage
nothing but, unlike the claim, do emit the "multiple packages" diagnostic
(with an empty candidate listing); more than one match stages no import and
emits a diagnostic in which every candidate's full path occurs.  In
particular, for `rand` both `crypto/rand` and `math/rand` are listed. -/
theorem c3_selector_lookup_outcomes :
    (∀ name p : String, pkgCandidates name = [p] →
      resolveSelector name = ("\"" ++ p ++ "\"", none))
    ∧ (∀ name : String, pkgCandidates name = [] →
      resolveSelector name = ("", some (multiplePackagesMessage name [])))
    ∧ (∀ name : String, 2 ≤ (pkgCandidates name).length →
      (resolveSelector name).1 = ""
      ∧ (resolveSelector name).2 =
          some (multiplePackagesMessage name (pkgCandidates name))
      ∧ ∀ c ∈ pkgCandidates name,
          c.data <:+: (multiplePackagesMessage name (pkgCandidates name)).data)
    ∧ (pkgCandidates "rand" = ["crypto/rand", "math/rand"]
      ∧ resolveSelector "rand" =
          ("", some "There are multiple packages named rand:\n    crypto/rand\n    math/rand\n")) := by
  refine ⟨?_, ?_, ?_, by decide, by decide⟩
  · intro name p h
    simp [resolveSelector, h]
  · intro name h
    simp [resolveSelector, h]
  · intro name h
    have hne : (pkgCandidates name).length ≠ 1 := by omega
    refine ⟨by simp [resolveSelector, hne], by simp [resolveSelector, hne], ?_⟩
    intro c hc
    exact infix_multiplePackagesMessage hc

theorem c3_selector_lookup_outcomes_witness :
    resolveSelector "filepath" = ("\"" ++ "path/filepath" ++ "\"", none) :=
  c3_selector_lookup_outcomes.1 "filepath" "path/filepath" (by decide)

theorem scanImportDecls_aux (decls : List GoDecl) (s e : Nat) (hs : s ≠ 0) :
    decls.foldl
        (fun acc d =>
          if d.isImport then
            (if acc.1 = 0 then d.pos else acc.1, d.declEnd)
          else acc)
        (s, e)
      = (s,
        (((decls.filter (fun d => d.isImport)).getLast?).map
            (fun d => d.declEnd)).getD e) := by
  induction decls generalizing e with
  | nil => simp
  | cons d rest ih =>
    by_cases hd : d.isImport
    · rw [List.foldl_cons]
      have hstep :
          (if d.isImport = true then
              (if (s, e).1 = 0 then d.pos else (s, e).1, d.declEnd)
            else (s, e)) = (s, d.declEnd) := by
        simp [hd, hs]
      rw [hstep, ih d.declEnd]
      simp only [List.filter_cons, hd, if_true, List.getLast?_cons]
      cases hl : (rest.filter (fun d => d.isImport)).getLast? <;> simp [hl]
    · rw [List.foldl_cons]
      have hstep :
          (if d.isImport = true then
              (if (s, e).1 = 0 then d.pos else (s, e).1, d.declEnd)
            else (s, e)) = (s, e) := by
        simp [hd]
      rw [hstep, ih e]
      simp only [List.filter_cons]
      rw [if_neg (by simpa using hd)]

theorem scanImportDecls_eq (decls : List GoDecl) (df : GoDecl)
    (hf : decls.find? (fun d => d.isImport) = some df) (hpos : df.pos ≠ 0) :
    scanImportDecls decls
      = (df.pos,
        (((decls.filter (fun d => d.isImport)).getLast?).map
            (fun d => d.declEnd)).getD 0) := by
  induction decls with
  | nil => simp at hf
  | cons d rest ih =>
    by_cases hd : d.isImport
    · have hdf : df = d := by
        have := hf
        rw [List.find?_cons_of_pos _ (by simpa using hd)] at this
        exact (Option.some_inj.mp this).symm
      subst hdf
      unfold scanImportDecls
      rw [List.foldl_cons]
      have hstep :
          (if df.isImport = true then
              (if ((0, 0) : Nat × Nat).1 = 0 then df.pos else ((0, 0) : Nat × Nat).1,
                df.declEnd)
            else ((0, 0) : Nat × Nat)) = (df.pos, df.declEnd) := by
        simp [hd]
      rw [hstep, scanImportDecls_aux rest df.pos df.declEnd hpos]
      simp only [List.filter_cons, hd, if_true, List.getLast?_cons]
      cases hl : (rest.filter (fun d => d.isImport)).getLast? <;> simp [hl]
    · have hf' : rest.find? (fun d => d.isImport) = some df := by
        have := hf
        rwa [List.find?_cons_of_neg _ (by simpa using hd)] at this
      unfold scanImportDecls at ih ⊢
      simp only [List.foldl_cons]
      rw [if_neg (by simpa using hd), ih hf']
      simp only [List.filter_cons]
      rw [if_neg (by simpa using hd)]

/-! ## Claim C9 -/

/-- C9 counterexample: a file whose only declaration is an empty import
declaration `import ()` contains an import declaration, yet `file.Imports`
(the import-spec list) is empty, so the code takes the insertion branch: a
zero-length range at the declaration's own offset with the `"\n"` suffix,
not the spanning range of length `end - start + 1` the claim requires. -/
theorem c9_empty_import_decl_counterexample :
    (GoFile.mk [⟨true, 5, 14, 0⟩]).decls.find? (fun d => d.isImport) =
        some ⟨true, 5, 14, 0⟩
    ∧ findReplacementRange ⟨[⟨true, 5, 14, 0⟩]⟩ = some (⟨5, 0⟩, "\n")
    ∧ findReplacementRange ⟨[⟨true, 5, 14, 0⟩]⟩ ≠ some (⟨5, 14 - 5 + 1⟩, "") := by
  refine ⟨rfl, rfl, by decide⟩

/-- C9 (amended): if the file contains at least one import *spec* (go/ast's
`file.Imports` is nonempty), the staged range starts at the first import
declaration's offset and has length `last declaration's end - first
declaration's start + 1`, coalescing all import declarations; if the file
contains no import specs, the range is a zero-length insertion at the first
top-level declaration's offset and the replacement carries the added `"\n"`
separator.  (`df.pos ≠ 0` reflects that a real node's `token.Pos` is
positive.) -/
theorem c9_replacement_range (f : GoFile) :
    (∀ df dl : GoDecl, numImportSpecs f ≠ 0 →
      f.decls.find? (fun d => d.isImport) = some df →
      (f.decls.filter (fun d => d.isImport)).getLast? = some dl →
      df.pos ≠ 0 →
      findReplacementRange f = some (⟨df.pos, dl.declEnd - df.pos + 1⟩, ""))
    ∧ (∀ (d : GoDecl) (rest : List GoDecl), numImportSpecs f = 0 →
      f.decls = d :: rest →
      findReplacementRange f = some (⟨d.pos, 0⟩, "\n")) := by
  constructor
  · intro df dl hn hf hl hpos
    unfold findReplacementRange
    rw [if_neg hn]
    unfold findImportStatementRange
    rw [scanImportDecls_eq f.decls df hf hpos, hl]
    rfl
  · intro d rest h0 hdecls
    unfold findReplacementRange
    rw [if_pos h0]
    simp [findFirstDeclOffset, hdecls]

theorem c9_replacement_range_witness :
    findReplacementRange ⟨[⟨true, 5, 14, 1⟩, ⟨false, 20, 30, 0⟩, ⟨true, 40, 55, 2⟩]⟩
      = some (⟨5, 55 - 5 + 1⟩, "")
    ∧ findReplacementRange ⟨[⟨false, 3, 9, 0⟩]⟩ = some (⟨3, 0⟩, "\n") :=
  ⟨(c9_replacement_range ⟨[⟨true, 5, 14, 1⟩, ⟨false, 20, 30, 0⟩, ⟨true, 40, 55, 2⟩]⟩).1
      ⟨true, 5, 14, 1⟩ ⟨true, 40, 55, 2⟩ (by decide) (by decide) (by decide) (by decide),
   (c9_replacement_range ⟨[⟨false, 3, 9, 0⟩]⟩).2 ⟨false, 3, 9, 0⟩ [] (by decide) rfl⟩

end Godoctor
